import Mathlib

/-!
Verification of the two computational cores of the career-calculator
repository: the salary-progression engine (`calculateProgression`) and the
cost-of-living converter (`resolveCity` / `handleConvert`).

JavaScript strings are modelled as lists of characters (`JStr`); machine
floating-point arithmetic is modelled by exact rational arithmetic (`ℚ`).
-/

/-- A JavaScript string, modelled as its sequence of characters. -/
abbrev JStr := List Char

/-- Coercion from Lean string literals into the `JStr` model. -/
def js (s : String) : JStr := s.toList

/-- `String.prototype.toLowerCase`, modelled characterwise. -/
def jsToLower (s : JStr) : JStr := s.map Char.toLower

/-- `String.prototype.trim`: drop whitespace from both ends. -/
def jsTrim (s : JStr) : JStr :=
  ((s.dropWhile Char.isWhitespace).reverse.dropWhile Char.isWhitespace).reverse

/-- `replace(/\./g, '')`: remove every period character. -/
def jsRemovePeriods (s : JStr) : JStr := s.filter (fun c => c ≠ '.')

/-- `haystack.includes(needle)`: substring containment (the empty needle
matches every haystack, as in JavaScript). -/
def jsIncludes : JStr → JStr → Bool
  | [], needle => needle.isEmpty
  | c :: rest, needle => needle.isPrefixOf (c :: rest) || jsIncludes rest needle

/-- The city-name normalization used by `resolveCity` on its query:
`cityName.toLowerCase().trim().replace(/\./g, '')`. -/
def normalizeCity (s : JStr) : JStr := jsRemovePeriods (jsTrim (jsToLower s))

/-- In `resolveCity` the result of `Array.prototype.find` over the alias
list is used in a truthiness test: `undefined` (no hit) and the empty
string are both falsy. -/
def jsFound : Option JStr → Bool
  | some a => !a.isEmpty
  | none => false

/-- One record of `msas.json`: canonical metro name (`msa`), region code
(`cbsa`) and the alias list. -/
structure MetroArea where
  msa : JStr
  cbsa : JStr
  aliases : List JStr
deriving DecidableEq

/-- The object `{ cbsa: msa.cbsa, msa: msa.msa }` returned by `resolveCity`. -/
structure ResolvedCity where
  cbsa : JStr
  msa : JStr
deriving DecidableEq

/-- Build the resolver's return object from a metro record. -/
def toResolved (m : MetroArea) : ResolvedCity := ⟨m.cbsa, m.msa⟩

/-- Tier 1 of `resolveCity`: a metro matches when some alias, fully
normalized (`alias.toLowerCase().trim().replace(/\./g,'')`), equals the
normalized query; the found alias is then truthiness-tested. -/
def tierExactMatch (normalized : JStr) (msa : MetroArea) : Bool :=
  jsFound (msa.aliases.find? (fun al => normalizeCity al == normalized))

/-- Tier 2 of `resolveCity`: bidirectional substring comparison between the
normalized query and `alias.toLowerCase()` (the alias is only lowercased:
it is neither trimmed nor stripped of periods). -/
def tierAliasContainsMatch (normalized : JStr) (msa : MetroArea) : Bool :=
  jsFound (msa.aliases.find? (fun al =>
    jsIncludes (jsToLower al) normalized || jsIncludes normalized (jsToLower al)))

/-- Tier 3 of `resolveCity`: bidirectional substring comparison between the
normalized query and `msa.msa.toLowerCase().replace(/\./g,'')` (the
canonical name is lowercased and period-stripped but not trimmed). -/
def tierNameContainsMatch (normalized : JStr) (msa : MetroArea) : Bool :=
  let msaNormalized := jsRemovePeriods (jsToLower msa.msa)
  jsIncludes msaNormalized normalized || jsIncludes normalized msaNormalized

/-- `COLConverter.resolveCity`: guard on the falsy (empty) query, normalize
the query once, then three sequential first-hit-wins scans over the metro
table. -/
def resolveCity (msaData : List MetroArea) (cityName : JStr) : Option ResolvedCity :=
  if cityName = [] then none
  else
    let normalized := normalizeCity cityName
    match msaData.find? (tierExactMatch normalized) with
    | some msa => some (toResolved msa)
    | none =>
      match msaData.find? (tierAliasContainsMatch normalized) with
      | some msa => some (toResolved msa)
      | none =>
        match msaData.find? (tierNameContainsMatch normalized) with
        | some msa => some (toResolved msa)
        | none => none

/-- Tier 2 as the spec describes it: the alias is given the same full
normalization as the query. -/
def specTierAliasContainsMatch (normalized : JStr) (msa : MetroArea) : Bool :=
  jsFound (msa.aliases.find? (fun al =>
    jsIncludes (normalizeCity al) normalized || jsIncludes normalized (normalizeCity al)))

/-- Tier 3 as the spec describes it: the canonical name is given the same
full normalization as the query. -/
def specTierNameContainsMatch (normalized : JStr) (msa : MetroArea) : Bool :=
  jsIncludes (normalizeCity msa.msa) normalized || jsIncludes normalized (normalizeCity msa.msa)

/-- Modelled from the spec: the resolver as the spec's words describe it,
with the normalization (lowercase, trim, remove periods) applied
identically to the query, every alias and every canonical name in all
three tiers.  Used only to compare against `resolveCity`. -/
def resolveCitySpecNorm (msaData : List MetroArea) (cityName : JStr) : Option ResolvedCity :=
  if cityName = [] then none
  else
    let normalized := normalizeCity cityName
    match msaData.find? (tierExactMatch normalized) with
    | some msa => some (toResolved msa)
    | none =>
      match msaData.find? (specTierAliasContainsMatch normalized) with
      | some msa => some (toResolved msa)
      | none =>
        match msaData.find? (specTierNameContainsMatch normalized) with
        | some msa => some (toResolved msa)
        | none => none

/-! ## Progression engine -/

/-- One row of the progression table. -/
structure Row where
  year : ℕ
  promotionNumber : ℕ
  startingSalary : ℚ
  finalSalary : ℚ
  colCompensation : ℚ
  promotionRaise : ℚ
  increase : ℚ
deriving DecidableEq

instance : Inhabited Row := ⟨⟨0, 0, 0, 0, 0, 0, 0⟩⟩

/-- The `data` object handed to `calculateProgression`. -/
structure ProgressionInput where
  startingSalary : ℚ
  colCompensation : ℚ
  promotionIncrease : ℚ

/-- The loop state of `calculateProgression` before each iteration. -/
structure ProgState where
  currentSalary : ℚ
  totalEarned : ℚ
  promotionNumber : ℕ
  progression : List Row
deriving DecidableEq

/-- The body of the `for (let year = 0; year <= 20; year++)` loop of
`calculateProgression`.  The promotion-year set is the `selectedYears` set
the UI maintains, passed here explicitly.  The `getD 0` default on the
previous row is never exercised: the list access only happens for
`year ≥ 2`, when the list is non-empty. -/
def progressionStep (data : ProgressionInput) (selectedYears : Finset ℕ)
    (st : ProgState) (year : ℕ) : ProgState :=
  let startingSalary := st.currentSalary
  let colIncrease := if 0 < year then startingSalary * (data.colCompensation / 100) else 0
  let promotionIncrease :=
    if 0 < year ∧ year ∈ selectedYears then startingSalary * (data.promotionIncrease / 100) else 0
  let promotionNumber :=
    if 0 < year ∧ year ∈ selectedYears then st.promotionNumber + 1 else st.promotionNumber
  let finalSalary := startingSalary + colIncrease + promotionIncrease
  let increase :=
    if 0 < year then
      let previousSalary :=
        if year = 1 then data.startingSalary
        else ((st.progression.getLast?).map Row.finalSalary).getD 0
      ((finalSalary - previousSalary) / previousSalary) * 100
    else 0
  { currentSalary := finalSalary
    totalEarned := st.totalEarned + finalSalary
    promotionNumber := promotionNumber
    progression := st.progression ++
      [⟨year, if 0 < year ∧ year ∈ selectedYears then promotionNumber else 0,
        startingSalary, finalSalary, colIncrease, promotionIncrease, increase⟩] }

/-- The result object of `calculateProgression`.  The `avgAnnualGrowth`
field (`Math.pow(currentSalary / startingSalary, 1/20) - 1`, a real-valued
20th root used only for display) is not modelled. -/
structure ProgressionResults where
  progression : List Row
  finalSalary : ℚ
  totalEarned : ℚ
  totalIncrease : ℚ

/-- `SalaryProgressionCalculator.calculateProgression`: fold the loop body
over years 0..20 starting from the user's input salary. -/
def calculateProgression (data : ProgressionInput) (selectedYears : Finset ℕ) :
    ProgressionResults :=
  let st := (List.range 21).foldl (progressionStep data selectedYears)
    ⟨data.startingSalary, 0, 0, []⟩
  { progression := st.progression
    finalSalary := st.currentSalary
    totalEarned := st.totalEarned
    totalIncrease := ((st.currentSalary - data.startingSalary) / data.startingSalary) * 100 }

/-! ## Cost converter -/

/-- The discriminated failure outcomes of `handleConvert`.  In the source
some are thrown `Error`s and some are per-field error messages followed by
an early `return`; all abort the conversion with no result. -/
inductive ConvError where
  | missingFields
  | rangeError
  | fromNotFound
  | toNotFound
  | sameRegion
  | missingRPP (cbsa : JStr)
deriving DecidableEq

/-- The data assembled by `handleConvert` for `displayResults`. -/
structure ConversionResult where
  fromMSA : ResolvedCity
  toMSA : ResolvedCity
  salary : ℚ
  equivalent : ℚ
  delta : ℚ
  fromRPP : ℚ
  toRPP : ℚ
  ratio : ℚ
deriving DecidableEq

/-- `COLConverter.handleConvert`, over a metro table and the RPP cache
(an association list from region code to index value; `fetchRPP` throws
when the code is absent).  The parsed salary is used in a truthiness test
(`!salary`), modelled as a zero test on the exact rational. -/
def handleConvert (msaData : List MetroArea) (rppCache : List (JStr × ℚ))
    (fromCityRaw toCityRaw : JStr) (salary : ℚ) : Except ConvError ConversionResult :=
  let fromCity := jsTrim fromCityRaw
  let toCity := jsTrim toCityRaw
  if fromCity = [] ∨ toCity = [] ∨ salary = 0 then .error .missingFields
  else if salary < 15000 ∨ salary > 5000000 then .error .rangeError
  else
    match resolveCity msaData fromCity with
    | none => .error .fromNotFound
    | some fromMSA =>
      match resolveCity msaData toCity with
      | none => .error .toNotFound
      | some toMSA =>
        if fromMSA.cbsa = toMSA.cbsa then .error .sameRegion
        else
          match rppCache.lookup fromMSA.cbsa with
          | none => .error (.missingRPP fromMSA.cbsa)
          | some fromRPP =>
            match rppCache.lookup toMSA.cbsa with
            | none => .error (.missingRPP toMSA.cbsa)
            | some toRPP =>
              let ratio := toRPP / fromRPP
              let equivalent := salary * ratio
              let delta := ((equivalent - salary) / salary) * 100
              .ok ⟨fromMSA, toMSA, salary, equivalent, delta, fromRPP, toRPP, ratio⟩


/-! ## Closed-form characterization of the progression loop -/

/-- The salary recurrence: `modelSalary y` is the final salary of year `y`
(`y = 0` is the user input). -/
def modelSalary (data : ProgressionInput) (sel : Finset ℕ) : ℕ → ℚ
  | 0 => data.startingSalary
  | y + 1 =>
    modelSalary data sel y *
      (1 + data.colCompensation / 100 +
        if y + 1 ∈ sel then data.promotionIncrease / 100 else 0)

/-- Number of selected promotion years in `[1, y]`. -/
def promoCount (sel : Finset ℕ) (y : ℕ) : ℕ :=
  ((Finset.Icc 1 y).filter (· ∈ sel)).card

/-- Closed form of the row pushed for year `y`. -/
def rowModel (data : ProgressionInput) (sel : Finset ℕ) (y : ℕ) : Row :=
  if y = 0 then ⟨0, 0, data.startingSalary, data.startingSalary, 0, 0, 0⟩
  else
    let start := modelSalary data sel (y - 1)
    let col := start * (data.colCompensation / 100)
    let promo := if y ∈ sel then start * (data.promotionIncrease / 100) else 0
    let fin := start + col + promo
    ⟨y, if y ∈ sel then promoCount sel y else 0, start, fin, col, promo,
      ((fin - start) / start) * 100⟩

/-- Closed form of the loop state after the years `0, …, n-1` have been
processed. -/
def stateModel (data : ProgressionInput) (sel : Finset ℕ) (n : ℕ) : ProgState :=
  { currentSalary := modelSalary data sel (n - 1)
    totalEarned := ((List.range n).map (modelSalary data sel)).sum
    promotionNumber := promoCount sel (n - 1)
    progression := (List.range n).map (rowModel data sel) }


/-- Sample metro table for converter witnesses. -/
def sampleMetros : List MetroArea :=
  [⟨js "alpha", js "100", [js "a"]⟩, ⟨js "beta", js "200", [js "b"]⟩]

/-- Sample RPP cache for converter witnesses. -/
def sampleCache : List (JStr × ℚ) := [(js "100", 100), (js "200", 120)]

/-- The conversion result of sampleMetros/sampleCache for "a" → "b" at 60000. -/
def sampleResult : ConversionResult :=
  ⟨⟨js "100", js "alpha"⟩, ⟨js "200", js "beta"⟩, 60000, 60000 * (120 / 100),
    ((60000 * (120 / 100) - 60000) / 60000) * 100, 100, 120, 120 / 100⟩

/-- The reverse conversion result for "b" → "a" at the equivalent salary. -/
def sampleResultBack : ConversionResult :=
  ⟨⟨js "200", js "beta"⟩, ⟨js "100", js "alpha"⟩, sampleResult.equivalent,
    sampleResult.equivalent * (100 / 120),
    ((sampleResult.equivalent * (100 / 120) - sampleResult.equivalent) /
      sampleResult.equivalent) * 100, 120, 100, 100 / 120⟩



/-- Sample metro with two textually different aliases for one region. -/
def sampleSameRegion : List MetroArea :=
  [⟨js "new york", js "35620", [js "nyc", js "big apple"]⟩]


/-! ## Theorems -/

theorem rowModel_finalSalary (data : ProgressionInput) (sel : Finset ℕ) (y : ℕ) :
    (rowModel data sel y).finalSalary = modelSalary data sel y := by
  cases y with
  | zero => simp [rowModel, modelSalary]
  | succ k =>
    simp only [rowModel, modelSalary, Nat.succ_ne_zero, if_false, Nat.add_sub_cancel]
    split <;> ring

theorem promoCount_zero (sel : Finset ℕ) : promoCount sel 0 = 0 := by
  unfold promoCount
  rw [show Finset.Icc 1 0 = (∅ : Finset ℕ) from Finset.Icc_eq_empty_of_lt Nat.zero_lt_one]
  simp

theorem promoCount_succ (sel : Finset ℕ) (k : ℕ) :
    promoCount sel (k + 1) = promoCount sel k + (if k + 1 ∈ sel then 1 else 0) := by
  unfold promoCount
  rw [show Finset.Icc 1 (k + 1) = insert (k + 1) (Finset.Icc 1 k) by
    ext z
    simp only [Finset.mem_Icc, Finset.mem_insert]
    omega]
  rw [Finset.filter_insert]
  split
  · rw [Finset.card_insert_of_not_mem (by simp)]
  · simp

theorem modelSalary_succ (data : ProgressionInput) (sel : Finset ℕ) (k : ℕ) :
    modelSalary data sel k + modelSalary data sel k * (data.colCompensation / 100) +
        (if k + 1 ∈ sel then modelSalary data sel k * (data.promotionIncrease / 100) else 0)
      = modelSalary data sel (k + 1) := by
  simp only [modelSalary]
  split <;> ring

theorem progressionStep_stateModel (data : ProgressionInput) (sel : Finset ℕ) (n : ℕ) :
    progressionStep data sel (stateModel data sel n) n = stateModel data sel (n + 1) := by
  cases n with
  | zero =>
    have h1 : List.range 1 = [0] := rfl
    simp [progressionStep, stateModel, rowModel, modelSalary, promoCount_zero, h1]
  | succ k =>
    have hlast : ((List.range (k + 1)).map (rowModel data sel)).getLast? =
        some (rowModel data sel k) := by
      rw [List.range_succ, List.map_append]
      simp [List.getLast?_concat]
    have hpos : (0 < k + 1) = True := eq_true (Nat.succ_pos k)
    have hprev : (if k + 1 = 1 then data.startingSalary else
        ((((List.range (k + 1)).map (rowModel data sel)).getLast?).map Row.finalSalary).getD 0)
        = modelSalary data sel k := by
      cases k with
      | zero => simp [modelSalary]
      | succ j =>
        rw [if_neg (by omega), hlast]
        simp [rowModel_finalSalary]
    have hrange : List.range (k + 1 + 1) = List.range (k + 1) ++ [k + 1] := by
      simpa using List.range_succ (k + 1)
    simp only [progressionStep, stateModel, Nat.add_sub_cancel, hpos, if_true, true_and, hprev,
      hrange, List.map_append, List.sum_append, List.map_cons, List.map_nil, List.sum_cons,
      List.sum_nil, add_zero, ProgState.mk.injEq]
    refine ⟨modelSalary_succ data sel k, ?_, ?_, ?_⟩
    · rw [modelSalary_succ data sel k]
    · rw [promoCount_succ]
      split <;> simp
    · congr 1
      rw [rowModel, if_neg (Nat.succ_ne_zero k)]
      simp only [Nat.add_sub_cancel, Row.mk.injEq, true_and, and_true]
      rw [promoCount_succ]
      split <;> simp

theorem progression_foldl_eq (data : ProgressionInput) (sel : Finset ℕ) (n : ℕ) :
    (List.range n).foldl (progressionStep data sel) ⟨data.startingSalary, 0, 0, []⟩
      = stateModel data sel n := by
  induction n with
  | zero => simp [stateModel, modelSalary, promoCount_zero]
  | succ k ih =>
    rw [List.range_succ, List.foldl_append, ih]
    simpa using progressionStep_stateModel data sel k

theorem calculateProgression_progression (data : ProgressionInput) (sel : Finset ℕ) :
    (calculateProgression data sel).progression = (List.range 21).map (rowModel data sel) := by
  rw [calculateProgression, progression_foldl_eq]
  rfl

theorem calculateProgression_getD (data : ProgressionInput) (sel : Finset ℕ)
    (y : ℕ) (hy : y < 21) :
    ((calculateProgression data sel).progression).getD y default = rowModel data sel y := by
  rw [calculateProgression_progression, List.getD_eq_getElem?_getD, List.getElem?_map,
    List.getElem?_range hy]
  rfl

theorem modelSalary_empty (data : ProgressionInput) (y : ℕ) :
    modelSalary data ∅ y = data.startingSalary * (1 + data.colCompensation / 100) ^ y := by
  induction y with
  | zero => simp [modelSalary]
  | succ k ih =>
    rw [modelSalary, ih, if_neg (Finset.not_mem_empty (k + 1))]
    ring

theorem rowModel_zero (data : ProgressionInput) (sel : Finset ℕ) :
    rowModel data sel 0 =
      ⟨0, 0, data.startingSalary, data.startingSalary, 0, 0, 0⟩ := by
  rw [rowModel]
  simp

theorem rowModel_succ (data : ProgressionInput) (sel : Finset ℕ) (z : ℕ) :
    rowModel data sel (z + 1) =
      ⟨z + 1, if z + 1 ∈ sel then promoCount sel (z + 1) else 0,
        modelSalary data sel z,
        modelSalary data sel z + modelSalary data sel z * (data.colCompensation / 100) +
          (if z + 1 ∈ sel then modelSalary data sel z * (data.promotionIncrease / 100) else 0),
        modelSalary data sel z * (data.colCompensation / 100),
        if z + 1 ∈ sel then modelSalary data sel z * (data.promotionIncrease / 100) else 0,
        ((modelSalary data sel z + modelSalary data sel z * (data.colCompensation / 100) +
            (if z + 1 ∈ sel then modelSalary data sel z * (data.promotionIncrease / 100) else 0) -
            modelSalary data sel z) / modelSalary data sel z) * 100⟩ := by
  rw [rowModel]
  simp [Nat.add_sub_cancel]

/-- Claim C1: for every positive starting salary, COL rate, promotion rate
and promotion-year set, the progression satisfies the recurrence: for every
year 1..20, finalSalary(year) = startingSalary(year) × (1 + colRate/100 +
promotionRate/100 × [year is a promotion year]), with startingSalary(year)
= finalSalary(year-1), startingSalary(0) = finalSalary(0) = the user input,
and the COL term applied unconditionally every year ≥ 1 on that year's
starting (pre-increase) salary. -/
theorem claim_C1 (data : ProgressionInput) (sel : Finset ℕ)
    (hpos : 0 < data.startingSalary) (y : ℕ) (h1 : 1 ≤ y) (h2 : y ≤ 20) :
    ((calculateProgression data sel).progression.getD y default).finalSalary
        = ((calculateProgression data sel).progression.getD y default).startingSalary *
            (1 + data.colCompensation / 100 +
              (if y ∈ sel then data.promotionIncrease / 100 else 0))
    ∧ ((calculateProgression data sel).progression.getD y default).startingSalary
        = ((calculateProgression data sel).progression.getD (y - 1) default).finalSalary
    ∧ ((calculateProgression data sel).progression.getD 0 default).startingSalary
        = data.startingSalary
    ∧ ((calculateProgression data sel).progression.getD 0 default).finalSalary
        = data.startingSalary
    ∧ ((calculateProgression data sel).progression.getD y default).colCompensation
        = ((calculateProgression data sel).progression.getD y default).startingSalary *
            (data.colCompensation / 100) := by
  obtain ⟨z, rfl⟩ : ∃ z, y = z + 1 := ⟨y - 1, by omega⟩
  rw [calculateProgression_getD data sel (z + 1) (by omega),
    calculateProgression_getD data sel (z + 1 - 1) (by omega),
    calculateProgression_getD data sel 0 (by omega),
    Nat.add_sub_cancel, rowModel_succ, rowModel_zero]
  dsimp only
  refine ⟨?_, ?_, rfl, rfl, rfl⟩
  · split <;> ring
  · rw [rowModel_finalSalary]

/-- Claim C7: for every starting salary S and COL rate c, with an empty
promotion-year set, finalSalary at year 20 equals S × (1+c/100)^20; in
particular with c = 0 every row's finalSalary equals S. -/
theorem claim_C7 (data : ProgressionInput) :
    ((calculateProgression data ∅).progression.getD 20 default).finalSalary
        = data.startingSalary * (1 + data.colCompensation / 100) ^ 20
    ∧ ∀ row ∈ (calculateProgression { data with colCompensation := 0 } ∅).progression,
        row.finalSalary = data.startingSalary := by
  constructor
  · rw [calculateProgression_getD data ∅ 20 (by omega), rowModel_finalSalary,
      modelSalary_empty]
  · intro row hrow
    rw [calculateProgression_progression] at hrow
    obtain ⟨y, hy, rfl⟩ := List.mem_map.mp hrow
    rw [rowModel_finalSalary, modelSalary_empty]
    simp

/-- Witness for C7 at S = 60000, c = 3 (and the flat case at year 0). -/
theorem claim_C7_witness :
    ((calculateProgression ⟨60000, 3, 10⟩ ∅).progression.getD 20 default).finalSalary
        = 60000 * (1 + (3:ℚ) / 100) ^ 20
    ∧ (rowModel ⟨60000, 0, 10⟩ ∅ 0).finalSalary = 60000 := by
  refine ⟨(claim_C7 ⟨60000, 3, 10⟩).1, (claim_C7 ⟨60000, 3, 10⟩).2 _ ?_⟩
  rw [calculateProgression_progression]
  exact List.mem_map_of_mem _ (by simp)

/-- Witness for C1 at data = ⟨60000, 3, 10⟩, sel = {5, 10, 15}, y = 5. -/
theorem claim_C1_witness :
    (0:ℚ) < 60000
    ∧ (((calculateProgression ⟨60000, 3, 10⟩ {5, 10, 15}).progression.getD 5
            default).finalSalary
        = ((calculateProgression ⟨60000, 3, 10⟩ {5, 10, 15}).progression.getD 5
            default).startingSalary *
            (1 + (3:ℚ) / 100 +
              (if 5 ∈ ({5, 10, 15} : Finset ℕ) then (10:ℚ) / 100 else 0))
      ∧ ((calculateProgression ⟨60000, 3, 10⟩ {5, 10, 15}).progression.getD 5
            default).startingSalary
          = ((calculateProgression ⟨60000, 3, 10⟩ {5, 10, 15}).progression.getD (5 - 1)
              default).finalSalary
      ∧ ((calculateProgression ⟨60000, 3, 10⟩ {5, 10, 15}).progression.getD 0
            default).startingSalary = 60000
      ∧ ((calculateProgression ⟨60000, 3, 10⟩ {5, 10, 15}).progression.getD 0
            default).finalSalary = 60000
      ∧ ((calculateProgression ⟨60000, 3, 10⟩ {5, 10, 15}).progression.getD 5
            default).colCompensation
          = ((calculateProgression ⟨60000, 3, 10⟩ {5, 10, 15}).progression.getD 5
              default).startingSalary * ((3:ℚ) / 100)) :=
  ⟨by decide, claim_C1 ⟨60000, 3, 10⟩ {5, 10, 15} (by decide) 5 (by decide) (by decide)⟩

/-- Claim C8: promotionSequenceNumber is 0 on every row whose year is not
in the promotion-year set, and on a selected row it equals the number of
selected promotion years less than or equal to that row's year. -/
theorem claim_C8 (data : ProgressionInput) (sel : Finset ℕ)
    (hsel : sel ⊆ Finset.Icc 1 20) (y : ℕ) (hy : y ≤ 20) :
    (y ∉ sel →
      ((calculateProgression data sel).progression.getD y default).promotionNumber = 0)
    ∧ (y ∈ sel →
      ((calculateProgression data sel).progression.getD y default).promotionNumber
        = (sel.filter (· ≤ y)).card) := by
  rw [calculateProgression_getD data sel y (by omega)]
  cases y with
  | zero =>
    rw [rowModel_zero]
    refine ⟨fun _ => rfl, fun h0 => absurd (hsel h0) (by simp)⟩
  | succ z =>
    rw [rowModel_succ]
    dsimp only
    constructor
    · intro hns
      rw [if_neg hns]
    · intro hs
      rw [if_pos hs]
      unfold promoCount
      congr 1
      ext w
      simp only [Finset.mem_filter, Finset.mem_Icc]
      constructor
      · rintro ⟨⟨-, hw2⟩, hw3⟩
        exact ⟨hw3, hw2⟩
      · rintro ⟨hw1, hw2⟩
        have hw := hsel hw1
        simp only [Finset.mem_Icc] at hw
        exact ⟨⟨hw.1, hw2⟩, hw1⟩

/-- Witness for C8 at sel = {5, 10, 15}, y = 10. -/
theorem claim_C8_witness :
    ((calculateProgression ⟨60000, 3, 10⟩ {5, 10, 15}).progression.getD 10
        default).promotionNumber
      = (({5, 10, 15} : Finset ℕ).filter (· ≤ 10)).card :=
  (claim_C8 ⟨60000, 3, 10⟩ {5, 10, 15} (by decide) 10 (by decide)).2 (by decide)

/-! ## Resolver lemmas and claims -/

theorem jsIncludes_nil (s : JStr) : jsIncludes s [] = true := by
  cases s <;> simp [jsIncludes, List.isPrefixOf]

theorem find?_congr_on {α : Type} {p q : α → Bool} :
    ∀ l : List α, (∀ x ∈ l, p x = q x) → l.find? p = l.find? q
  | [], _ => rfl
  | a :: t, h => by
    have ha := h a (List.mem_cons_self a t)
    simp only [List.find?_cons, ha]
    cases hqa : q a
    · exact find?_congr_on t (fun x hx => h x (List.mem_cons_of_mem a hx))
    · rfl

theorem find?_eq_of_first {α : Type} {p : α → Bool} :
    ∀ (l : List α) (i : ℕ) (x : α), l[i]? = some x → p x = true →
      (∀ j y, j < i → l[j]? = some y → p y = false) → l.find? p = some x
  | [], i, x, hx, _, _ => by simp at hx
  | a :: t, 0, x, hx, hpx, _ => by
    simp only [List.getElem?_cons_zero, Option.some.injEq] at hx
    subst hx
    simp [List.find?_cons, hpx]
  | a :: t, i + 1, x, hx, hpx, hearlier => by
    have hpa : p a = false :=
      hearlier 0 a (Nat.succ_pos i) (by simp)
    simp only [List.getElem?_cons_succ] at hx
    simp only [List.find?_cons, hpa]
    exact find?_eq_of_first t i x hx hpx
      (fun j y hj hy => hearlier (j + 1) y (Nat.succ_lt_succ hj) (by simpa using hy))

/-- Claim C3 (counterexample): for the empty query string a tier matches
(the empty normalized query substring-matches any alias at tier 2) yet the
resolver returns NOT_FOUND, so the claim fails as stated for every query. -/
theorem claim_C3_counterexample :
    tierAliasContainsMatch (normalizeCity ([] : JStr)) ⟨js "aaa", js "1", [js "a"]⟩ = true
    ∧ resolveCity [⟨js "aaa", js "1", [js "a"]⟩] [] = none := by decide

/-- Claim C3 (amended: non-empty queries): the resolver returns the first
match in priority-tier order — exact alias, then substring alias, then
substring canonical name — and within a tier the first metro in table
order wins, with no backtracking across tiers; if no tier matches, the
result is NOT_FOUND. -/
theorem claim_C3_amended (table : List MetroArea) (q : JStr) (hq : q ≠ []) :
    ((∀ m ∈ table, tierExactMatch (normalizeCity q) m = false) →
      (∀ m ∈ table, tierAliasContainsMatch (normalizeCity q) m = false) →
      (∀ m ∈ table, tierNameContainsMatch (normalizeCity q) m = false) →
      resolveCity table q = none)
    ∧ (∀ (i : ℕ) (m : MetroArea), table[i]? = some m → tierExactMatch (normalizeCity q) m = true →
        (∀ (j : ℕ) (m' : MetroArea), j < i → table[j]? = some m' →
          tierExactMatch (normalizeCity q) m' = false) →
        resolveCity table q = some (toResolved m))
    ∧ ((∀ m ∈ table, tierExactMatch (normalizeCity q) m = false) →
        ∀ (i : ℕ) (m : MetroArea), table[i]? = some m → tierAliasContainsMatch (normalizeCity q) m = true →
        (∀ (j : ℕ) (m' : MetroArea), j < i → table[j]? = some m' →
          tierAliasContainsMatch (normalizeCity q) m' = false) →
        resolveCity table q = some (toResolved m))
    ∧ ((∀ m ∈ table, tierExactMatch (normalizeCity q) m = false) →
        (∀ m ∈ table, tierAliasContainsMatch (normalizeCity q) m = false) →
        ∀ (i : ℕ) (m : MetroArea), table[i]? = some m → tierNameContainsMatch (normalizeCity q) m = true →
        (∀ (j : ℕ) (m' : MetroArea), j < i → table[j]? = some m' →
          tierNameContainsMatch (normalizeCity q) m' = false) →
        resolveCity table q = some (toResolved m)) := by
  refine ⟨?_, ?_, ?_, ?_⟩
  · intro h1 h2 h3
    have e1 : table.find? (tierExactMatch (normalizeCity q)) = none :=
      List.find?_eq_none.mpr (fun x hx => by simp [h1 x hx])
    have e2 : table.find? (tierAliasContainsMatch (normalizeCity q)) = none :=
      List.find?_eq_none.mpr (fun x hx => by simp [h2 x hx])
    have e3 : table.find? (tierNameContainsMatch (normalizeCity q)) = none :=
      List.find?_eq_none.mpr (fun x hx => by simp [h3 x hx])
    rw [resolveCity, if_neg hq]
    simp only [e1, e2, e3]
  · intro i m hi hm hearlier
    have e1 := find?_eq_of_first table i m hi hm hearlier
    rw [resolveCity, if_neg hq]
    simp only [e1]
  · intro h1 i m hi hm hearlier
    have e1 : table.find? (tierExactMatch (normalizeCity q)) = none :=
      List.find?_eq_none.mpr (fun x hx => by simp [h1 x hx])
    have e2 := find?_eq_of_first table i m hi hm hearlier
    rw [resolveCity, if_neg hq]
    simp only [e1, e2]
  · intro h1 h2 i m hi hm hearlier
    have e1 : table.find? (tierExactMatch (normalizeCity q)) = none :=
      List.find?_eq_none.mpr (fun x hx => by simp [h1 x hx])
    have e2 : table.find? (tierAliasContainsMatch (normalizeCity q)) = none :=
      List.find?_eq_none.mpr (fun x hx => by simp [h2 x hx])
    have e3 := find?_eq_of_first table i m hi hm hearlier
    rw [resolveCity, if_neg hq]
    simp only [e1, e2, e3]

/-- Witness for the amended C3: two metros share the exact alias "nyc";
the first one in table order wins. -/
theorem claim_C3_witness :
    resolveCity [⟨js "first", js "1", [js "nyc"]⟩, ⟨js "second", js "2", [js "nyc"]⟩]
        (js "nyc")
      = some (toResolved ⟨js "first", js "1", [js "nyc"]⟩) :=
  (claim_C3_amended _ _ (by decide)).2.1 0 _ (by decide) (by decide)
    (fun j m' hj _ => absurd hj (Nat.not_lt_zero j))

/-- Claim C9 (counterexample): normalizing first can change the result.
A query of a lone period resolves (the empty normalized query
substring-matches at tier 2) but its normalized form is the empty string,
which is guarded to NOT_FOUND; and normalization is not idempotent —
removing periods can expose trailing whitespace — so "st ." and its
normalized form "st " resolve to different metros. -/
theorem claim_C9_counterexample :
    (resolveCity [⟨js "aaa", js "1", [js "a"]⟩] (normalizeCity (js "."))
      ≠ resolveCity [⟨js "aaa", js "1", [js "a"]⟩] (js "."))
    ∧ (resolveCity [⟨js "q", js "1", [js "stx"]⟩, ⟨js "r", js "2", [js "st y"]⟩]
        (normalizeCity (js "st ."))
      ≠ resolveCity [⟨js "q", js "1", [js "stx"]⟩, ⟨js "r", js "2", [js "st y"]⟩]
        (js "st .")) := by decide

/-- Claim C9 (amended): resolving the normalized form of `q` agrees with
resolving `q` whenever the normalized form is non-empty and is itself a
fixed point of normalization (normalization is not idempotent in general
because period removal can expose new edge whitespace). -/
theorem claim_C9_amended (table : List MetroArea) (q : JStr)
    (h1 : normalizeCity q ≠ [])
    (h2 : normalizeCity (normalizeCity q) = normalizeCity q) :
    resolveCity table (normalizeCity q) = resolveCity table q := by
  have hq : q ≠ [] := by
    intro he
    exact h1 (by rw [he]; rfl)
  rw [resolveCity, resolveCity, if_neg h1, if_neg hq, h2]

/-- Witness for the amended C9 at q = "NYC". -/
theorem claim_C9_witness :
    resolveCity [⟨js "new york", js "35620", [js "nyc"]⟩] (normalizeCity (js "NYC"))
      = resolveCity [⟨js "new york", js "35620", [js "nyc"]⟩] (js "NYC") :=
  claim_C9_amended _ _ (by decide) (by decide)

/-- Claim C10 (counterexample): with an alias that itself normalizes to
the empty string, tier 1 fires on a later metro, so a query normalizing to
empty need not resolve to the first metro that has an alias. -/
theorem claim_C10_counterexample :
    (js " . " ≠ [])
    ∧ normalizeCity (js " . ") = []
    ∧ (⟨js "aaa", js "1", [js "a"]⟩ : MetroArea).aliases ≠ []
    ∧ resolveCity [⟨js "aaa", js "1", [js "a"]⟩, ⟨js "bbb", js "2", [js "."]⟩] (js " . ")
        = some (toResolved ⟨js "bbb", js "2", [js "."]⟩)
    ∧ toResolved ⟨js "bbb", js "2", [js "."]⟩ ≠ toResolved ⟨js "aaa", js "1", [js "a"]⟩ := by
  decide

/-- Claim C10 (amended): for a non-empty query whose normalized form is
empty, over a table whose first entry has an alias and in which no alias
normalizes to the empty string, the resolver does not return NOT_FOUND:
it returns the first metro in table order (the empty normalized query
substring-matches every alias at tier 2). -/
theorem claim_C10_amended (table : List MetroArea) (q : JStr) (m : MetroArea)
    (rest : List MetroArea) (htab : table = m :: rest) (hq : q ≠ [])
    (hnq : normalizeCity q = []) (hal : m.aliases ≠ [])
    (hnone : ∀ m' ∈ table, ∀ a ∈ m'.aliases, normalizeCity a ≠ []) :
    resolveCity table q ≠ none ∧ resolveCity table q = some (toResolved m) := by
  subst htab
  have e1 : (m :: rest).find? (tierExactMatch ([] : JStr)) = none := by
    apply List.find?_eq_none.mpr
    intro x hx
    have hfind : x.aliases.find? (fun al => normalizeCity al == ([] : JStr)) = none := by
      apply List.find?_eq_none.mpr
      intro a ha
      simpa using hnone x hx a ha
    unfold tierExactMatch
    rw [hfind]
    simp [jsFound]
  have e2 : (m :: rest).find? (tierAliasContainsMatch ([] : JStr)) = some m := by
    apply List.find?_cons_of_pos
    obtain ⟨a0, as, hae⟩ : ∃ a0 as, m.aliases = a0 :: as := by
      cases hc : m.aliases with
      | nil => exact absurd hc hal
      | cons a0 as => exact ⟨a0, as, rfl⟩
    have ha0 : a0 ≠ [] := by
      intro h0
      apply hnone m (List.mem_cons_self m rest) a0 (by rw [hae]; exact List.mem_cons_self a0 as)
      rw [h0]
      rfl
    rw [tierAliasContainsMatch, hae, List.find?_cons_of_pos _ (by simp [jsIncludes_nil])]
    simpa [jsFound] using ha0
  rw [resolveCity, if_neg hq, hnq]
  simp only [e1, e2]
  exact ⟨Option.some_ne_none _, by trivial⟩

/-- Witness for the amended C10: query " . " over a clean two-metro table
resolves to the first metro. -/
theorem claim_C10_witness :
    resolveCity [⟨js "aaa", js "1", [js "a"]⟩, ⟨js "bbb", js "2", [js "b"]⟩] (js " . ")
        ≠ none
    ∧ resolveCity [⟨js "aaa", js "1", [js "a"]⟩, ⟨js "bbb", js "2", [js "b"]⟩] (js " . ")
        = some (toResolved ⟨js "aaa", js "1", [js "a"]⟩) :=
  claim_C10_amended _ _ _ _ rfl (by decide) (by decide) (by decide) (by decide)

/-- Claim C2 (counterexample): the code resolver and the spec's
identically-normalizing resolver disagree: the alias "st. louis metro" is
never stripped of its period in the substring tier, so the query
"st louis" fails in the code but succeeds under the spec's normalization. -/
theorem claim_C2_counterexample :
    resolveCity [⟨js "zzz", js "9", [js "st. louis metro"]⟩] (js "st louis") = none
    ∧ resolveCitySpecNorm [⟨js "zzz", js "9", [js "st. louis metro"]⟩] (js "st louis")
        = some ⟨js "9", js "zzz"⟩ := by decide

/-- Claim C2 (amended): full normalization is applied to the query, and to
aliases only in the exact tier; the substring alias tier merely lowercases
the alias and the canonical-name tier lowercases and strips periods but
does not trim.  Hence the resolver coincides with the fully-normalizing
resolver exactly on tables whose lowercased aliases are unchanged by
trimming and period removal and whose lowercased canonical names are
unchanged by trimming before period removal. -/
theorem claim_C2_amended (table : List MetroArea) (q : JStr)
    (hal : ∀ m ∈ table, ∀ a ∈ m.aliases, normalizeCity a = jsToLower a)
    (hmsa : ∀ m ∈ table, normalizeCity m.msa = jsRemovePeriods (jsToLower m.msa)) :
    resolveCity table q = resolveCitySpecNorm table q := by
  have e2 : table.find? (tierAliasContainsMatch (normalizeCity q))
      = table.find? (specTierAliasContainsMatch (normalizeCity q)) := by
    apply find?_congr_on
    intro m hm
    unfold tierAliasContainsMatch specTierAliasContainsMatch
    congr 1
    apply find?_congr_on
    intro a ha
    rw [hal m hm a ha]
  have e3 : table.find? (tierNameContainsMatch (normalizeCity q))
      = table.find? (specTierNameContainsMatch (normalizeCity q)) := by
    apply find?_congr_on
    intro m hm
    unfold tierNameContainsMatch specTierNameContainsMatch
    rw [hmsa m hm]
  by_cases hq : q = []
  · rw [resolveCity, resolveCitySpecNorm, if_pos hq, if_pos hq]
  · rw [resolveCity, resolveCitySpecNorm, if_neg hq, if_neg hq]
    dsimp only
    rw [e2, e3]

/-- Witness for the amended C2 on a normalization-stable table. -/
theorem claim_C2_witness :
    resolveCity [⟨js "new york-newark-jersey city", js "35620", [js "nyc", js "new york"]⟩]
        (js "NYC")
      = resolveCitySpecNorm
          [⟨js "new york-newark-jersey city", js "35620", [js "nyc", js "new york"]⟩]
          (js "NYC") :=
  claim_C2_amended _ _ (by decide) (by decide)

/-! ## Converter lemmas and claims -/

theorem handleConvert_ok (msaData : List MetroArea) (cache : List (JStr × ℚ))
    (fq tq : JStr) (s : ℚ) (r : ConversionResult)
    (h : handleConvert msaData cache fq tq s = .ok r) :
    resolveCity msaData (jsTrim fq) = some r.fromMSA
    ∧ resolveCity msaData (jsTrim tq) = some r.toMSA
    ∧ cache.lookup r.fromMSA.cbsa = some r.fromRPP
    ∧ cache.lookup r.toMSA.cbsa = some r.toRPP
    ∧ r.salary = s
    ∧ r.equivalent = s * (r.toRPP / r.fromRPP) := by
  rw [handleConvert] at h
  dsimp only at h
  split at h
  · simp at h
  split at h
  · simp at h
  split at h
  · simp at h
  next fromMSA hfrom =>
    split at h
    · simp at h
    next toMSA hto =>
      split at h
      · simp at h
      split at h
      · simp at h
      next fromRPP hl1 =>
        split at h
        · simp at h
        next toRPP hl2 =>
          injection h with h'
          subst h'
          exact ⟨hfrom, hto, hl1, hl2, rfl, rfl⟩

theorem handleConvert_build (msaData : List MetroArea) (cache : List (JStr × ℚ))
    (fq tq : JStr) (s : ℚ) (fm tm : ResolvedCity) (fv tv : ℚ)
    (h1 : ¬(jsTrim fq = [] ∨ jsTrim tq = [] ∨ s = 0))
    (h2 : ¬(s < 15000 ∨ s > 5000000))
    (h3 : resolveCity msaData (jsTrim fq) = some fm)
    (h4 : resolveCity msaData (jsTrim tq) = some tm)
    (h5 : ¬(fm.cbsa = tm.cbsa))
    (h6 : cache.lookup fm.cbsa = some fv)
    (h7 : cache.lookup tm.cbsa = some tv) :
    handleConvert msaData cache fq tq s =
      .ok ⟨fm, tm, s, s * (tv / fv), ((s * (tv / fv) - s) / s) * 100, fv, tv, tv / fv⟩ := by
  rw [handleConvert]
  dsimp only
  rw [if_neg h1, if_neg h2, h3, h4]
  dsimp only
  rw [if_neg h5, h6, h7]

/-- Claim C4: converting a salary from A to B and then converting the
resulting equivalent salary from B to A returns the original salary,
exactly over exact arithmetic (salary × (toIndex/fromIndex) ×
(fromIndex/toIndex) = salary), for distinct resolvable regions with
(non-zero) index values present. -/
theorem claim_C4 (msaData : List MetroArea) (cache : List (JStr × ℚ))
    (fq tq : JStr) (s : ℚ) (r r2 : ConversionResult)
    (h1 : handleConvert msaData cache fq tq s = .ok r)
    (h2 : handleConvert msaData cache tq fq r.equivalent = .ok r2)
    (hf : r.fromRPP ≠ 0) (ht : r.toRPP ≠ 0) :
    r2.equivalent = s := by
  obtain ⟨hfrom1, hto1, hl1, hl2, hsal1, heq1⟩ := handleConvert_ok _ _ _ _ _ _ h1
  obtain ⟨hfrom2, hto2, hl3, hl4, hsal2, heq2⟩ := handleConvert_ok _ _ _ _ _ _ h2
  have em1 : r.toMSA = r2.fromMSA := Option.some_inj.mp (hto1.symm.trans hfrom2)
  have em2 : r.fromMSA = r2.toMSA := Option.some_inj.mp (hfrom1.symm.trans hto2)
  have ev1 : r.toRPP = r2.fromRPP := by
    apply Option.some_inj.mp
    rw [← hl2, em1]
    exact hl3
  have ev2 : r.fromRPP = r2.toRPP := by
    apply Option.some_inj.mp
    rw [← hl1, em2]
    exact hl4
  rw [heq2, heq1, ← ev1, ← ev2]
  field_simp

/-- Claim C6: whenever the two query strings both resolve to the same
region code — even when they differ textually — the conversion fails with
the same-region error and produces no conversion result. -/
theorem claim_C6 (msaData : List MetroArea) (cache : List (JStr × ℚ))
    (fq tq : JStr) (s : ℚ) (r1 r2 : ResolvedCity)
    (hfq : jsTrim fq ≠ []) (htq : jsTrim tq ≠ []) (hs0 : s ≠ 0)
    (hlo : 15000 ≤ s) (hhi : s ≤ 5000000)
    (h1 : resolveCity msaData (jsTrim fq) = some r1)
    (h2 : resolveCity msaData (jsTrim tq) = some r2)
    (hsame : r1.cbsa = r2.cbsa) :
    handleConvert msaData cache fq tq s = .error .sameRegion := by
  rw [handleConvert]
  dsimp only
  rw [if_neg (by simp [hfq, htq, hs0]), if_neg (by push_neg; exact ⟨hlo, hhi⟩), h1, h2]
  dsimp only
  rw [if_pos hsame]

/-- Claim C5: the salary bounds are inclusive — out-of-range salaries fail
with the range error before any resolution or lookup (for any metro table
and cache), while 15000 and 5000000 pass the range check. -/
theorem claim_C5 (msaData : List MetroArea) (cache : List (JStr × ℚ))
    (fq tq : JStr) (s : ℚ)
    (hfq : jsTrim fq ≠ []) (htq : jsTrim tq ≠ []) :
    (s ≠ 0 → s < 15000 ∨ s > 5000000 →
      handleConvert msaData cache fq tq s = .error .rangeError)
    ∧ handleConvert msaData cache fq tq 15000 ≠ .error .rangeError
    ∧ handleConvert msaData cache fq tq 5000000 ≠ .error .rangeError := by
  refine ⟨?_, ?_, ?_⟩
  · intro hs hrange
    rw [handleConvert]
    dsimp only
    rw [if_neg (by simp [hfq, htq, hs]), if_pos hrange]
  · rw [handleConvert]
    dsimp only
    rw [if_neg (by simp [hfq, htq]),
      if_neg (by push_neg; constructor <;> norm_num)]
    split
    · simp
    split
    · simp
    split
    · simp
    split
    · simp
    split
    · simp
    simp
  · rw [handleConvert]
    dsimp only
    rw [if_neg (by simp [hfq, htq]),
      if_neg (by push_neg; constructor <;> norm_num)]
    split
    · simp
    split
    · simp
    split
    · simp
    split
    · simp
    split
    · simp
    simp

/-- Witness for C4: 60000 from "a" (index 100) to "b" (index 120) and back. -/
theorem claim_C4_witness : sampleResultBack.equivalent = 60000 :=
  claim_C4 sampleMetros sampleCache (js "a") (js "b") 60000 sampleResult sampleResultBack
    (by
      rw [handleConvert_build sampleMetros sampleCache (js "a") (js "b") 60000
        ⟨js "100", js "alpha"⟩ ⟨js "200", js "beta"⟩ 100 120 (by decide) (by decide)
        (by decide) (by decide) (by decide) (by decide) (by decide)]
      rfl)
    (by
      rw [handleConvert_build sampleMetros sampleCache (js "b") (js "a")
        sampleResult.equivalent ⟨js "200", js "beta"⟩ ⟨js "100", js "alpha"⟩ 120 100
        (by
          push_neg
          exact ⟨by decide, by decide, by norm_num [sampleResult]⟩)
        (by
          push_neg
          constructor <;> norm_num [sampleResult])
        (by decide) (by decide) (by decide) (by decide) (by decide)]
      rfl)
    (by decide) (by decide)

/-- Witness for C5: 14999.99 is rejected with the range error and 15000
passes the range check. -/
theorem claim_C5_witness :
    handleConvert sampleMetros sampleCache (js "a") (js "b") 14999.99
        = .error .rangeError
    ∧ handleConvert sampleMetros sampleCache (js "a") (js "b") 15000
        ≠ .error .rangeError :=
  ⟨(claim_C5 sampleMetros sampleCache (js "a") (js "b") 14999.99 (by decide)
      (by decide)).1 (by norm_num) (Or.inl (by norm_num)),
   (claim_C5 sampleMetros sampleCache (js "a") (js "b") 0 (by decide) (by decide)).2.1⟩

/-- Witness for C6: "nyc" and "big apple" differ textually but resolve to
the same region code; the conversion fails with the same-region error. -/
theorem claim_C6_witness :
    handleConvert sampleSameRegion sampleCache (js "nyc") (js "big apple") 60000
      = .error .sameRegion :=
  claim_C6 sampleSameRegion sampleCache (js "nyc") (js "big apple") 60000
    ⟨js "35620", js "new york"⟩ ⟨js "35620", js "new york"⟩ (by decide) (by decide)
    (by decide) (by decide) (by decide) (by decide) (by decide) rfl
